import Mathlib

/-!
Verification development for a 2D compressible Euler solver
(Lax–Friedrichs scheme on a structured grid with ghost cells and a
circular immersed obstacle), shallowly embedded over exact rationals.

The embedding mirrors `cfd_euler_gpu.cpp`:
  * `pressure`, `fluxX`, `fluxY` — the pure thermodynamic/flux functions;
  * `initSolid` / `initState` — the initialization loop (obstacle mask and
    free-stream / at-rest seeding);
  * `applyLR`, `applyBT`, `applyBoundary` — the two boundary loops
    (left inflow / right outflow, then bottom/top reflective);
  * `laxCell` / `nextBuffer` — the interior Lax–Friedrichs update pass;
  * `commitState` — the copy-back pass;
  * `stepState` — one full time step (boundaries, update, commit);
  * `totalKinetic` / `runSim` — the diagnostic reduction and the driver loop.

The time step `dt` is kept symbolic (in the program it involves a square
root); all algebraic claims below hold for every rational `dt`.
-/

namespace CfdEuler

/-- Ratio of specific heats, the global constant `gamma_val = 1.4`. -/
def gammaVal : ℚ := 1.4

/-- One cell of conservative state: density, x-momentum, y-momentum,
total energy. -/
@[ext]
structure Cell where
  rho : ℚ
  rhou : ℚ
  rhov : ℚ
  E : ℚ
deriving DecidableEq, Repr

/-- Pressure from the conservative variables, as in `pressure` of the source:
`p = (gamma - 1) * (E - 0.5 * rho * (u*u + v*v))` with `u = rhou/rho`,
`v = rhov/rho`. -/
def pressure (rho rhou rhov E : ℚ) : ℚ :=
  let u := rhou / rho
  let v := rhov / rho
  let kinetic := 0.5 * rho * (u * u + v * v)
  (gammaVal - 1) * (E - kinetic)

/-- The four components of a flux vector. -/
@[ext]
structure Flux where
  frho : ℚ
  frhou : ℚ
  frhov : ℚ
  fE : ℚ
deriving DecidableEq, Repr

/-- x-direction Euler flux, as in `fluxX` of the source. -/
def fluxX (rho rhou rhov E : ℚ) : Flux :=
  let u := rhou / rho
  let p := pressure rho rhou rhov E
  { frho := rhou, frhou := rhou * u + p, frhov := rhov * u, fE := (E + p) * u }

/-- y-direction Euler flux, as in `fluxY` of the source. -/
def fluxY (rho rhou rhov E : ℚ) : Flux :=
  let v := rhov / rho
  let p := pressure rho rhou rhov E
  { frho := rhov, frhou := rhou * v, frhov := rhov * v + p, fE := (E + p) * v }

/-- `fluxX` applied to a cell's four conservative components. -/
def fluxXCell (a : Cell) : Flux := fluxX a.rho a.rhou a.rhov a.E

/-- `fluxY` applied to a cell's four conservative components. -/
def fluxYCell (a : Cell) : Flux := fluxY a.rho a.rhou a.rhov a.E

/-- Run configuration: grid size, cell sizes, time step, and the
free-stream primitive state.  In the source these are `const` locals of
`main` (`Nx, Ny, dx, dy, dt, rho0, u0, v0, p0`). -/
structure Config where
  Nx : ℕ
  Ny : ℕ
  dx : ℚ
  dy : ℚ
  dt : ℚ
  rho0 : ℚ
  u0 : ℚ
  v0 : ℚ
  p0 : ℚ

/-- Free-stream total energy `E0 = p0/(gamma-1) + 0.5*rho0*(u0*u0+v0*v0)`. -/
def Config.E0 (c : Config) : ℚ :=
  c.p0 / (gammaVal - 1) + 0.5 * c.rho0 * (c.u0 * c.u0 + c.v0 * c.v0)

/-- The free-stream conservative state `(rho0, rho0*u0, rho0*v0, E0)`,
written by the initializer's fluid branch and by the left inflow boundary. -/
def freeStreamCell (c : Config) : Cell :=
  { rho := c.rho0, rhou := c.rho0 * c.u0, rhov := c.rho0 * c.v0, E := c.E0 }

/-- A field of cells over the ghost-padded grid; index `(i, j)` with
`i ∈ [0, Nx+1]`, `j ∈ [0, Ny+1]` (the model is total on ℕ × ℕ, the
program only ever touches that range). -/
abbrev State := ℕ → ℕ → Cell

/-- Obstacle test of the initialization loop: cell-center coordinates
`x = (i-0.5)*dx`, `y = (j-0.5)*dy`, solid when
`(x-cx)*(x-cx) + (y-cy)*(y-cy) <= radius*radius`. -/
def initSolid (c : Config) (cx cy radius : ℚ) (i j : ℕ) : Bool :=
  let x := ((i : ℚ) - 0.5) * c.dx
  let y := ((j : ℚ) - 0.5) * c.dy
  decide ((x - cx) * (x - cx) + (y - cy) * (y - cy) ≤ radius * radius)

/-- Initial state written by the initialization loop: solid cells get the
at-rest seed `(rho0, 0, 0, p0/(gamma-1))`, fluid cells the free stream. -/
def initState (c : Config) (cx cy radius : ℚ) : State := fun i j =>
  if initSolid c cx cy radius i j then
    { rho := c.rho0, rhou := 0, rhov := 0, E := c.p0 / (gammaVal - 1) }
  else
    freeStreamCell c

/-- First boundary loop: left inflow (`i = 0` forced to free stream) and
right outflow (`i = Nx+1` copies column `Nx`).  Within one `j` iteration
the left write happens before the right read, which the inner `s1`
captures. -/
def applyLR (c : Config) (s : State) : State :=
  let s1 : State := fun i j => if i = 0 then freeStreamCell c else s i j
  fun i j => if i = c.Nx + 1 then s1 c.Nx j else s1 i j

/-- Reflective mirror of a cell: `rho`, `rhou`, `E` copied, `rhov` negated. -/
def mirrorCell (a : Cell) : Cell :=
  { rho := a.rho, rhou := a.rhou, rhov := -a.rhov, E := a.E }

/-- Second boundary loop: bottom (`j = 0` mirrors row 1 with `rhov`
negated) and top (`j = Ny+1` mirrors row `Ny`).  Within one `i` iteration
the bottom write happens before the top read, which the inner `s1`
captures. -/
def applyBT (c : Config) (s : State) : State :=
  let s1 : State := fun i j => if j = 0 then mirrorCell (s i 1) else s i j
  fun i j => if j = c.Ny + 1 then mirrorCell (s1 i c.Ny) else s1 i j

/-- The whole Boundary Applicator of one step: the left/right loop runs
first, then the bottom/top loop. -/
def applyBoundary (c : Config) (s : State) : State :=
  applyBT c (applyLR c s)

/-- The Lax–Friedrichs update of one non-solid interior cell, exactly the
`else` branch of the interior loop: fluxes at the four face neighbors,
`dtdx = dt/(2*dx)`, `dtdy = dt/(2*dy)`, and for each conserved component
`0.25 * (east + west + north + south) - dtdx * (fx1 - fx2) - dtdy * (fy1 - fy2)`. -/
def laxCell (c : Config) (s : State) (i j : ℕ) : Cell :=
  let e := s (i + 1) j
  let w := s (i - 1) j
  let no := s i (j + 1)
  let so := s i (j - 1)
  let fx1 := fluxXCell e
  let fx2 := fluxXCell w
  let fy1 := fluxYCell no
  let fy2 := fluxYCell so
  let dtdx := c.dt / (2 * c.dx)
  let dtdy := c.dt / (2 * c.dy)
  { rho := 0.25 * (e.rho + w.rho + no.rho + so.rho) -
        dtdx * (fx1.frho - fx2.frho) - dtdy * (fy1.frho - fy2.frho)
    rhou := 0.25 * (e.rhou + w.rhou + no.rhou + so.rhou) -
        dtdx * (fx1.frhou - fx2.frhou) - dtdy * (fy1.frhou - fy2.frhou)
    rhov := 0.25 * (e.rhov + w.rhov + no.rhov + so.rhov) -
        dtdx * (fx1.frhov - fx2.frhov) - dtdy * (fy1.frhov - fy2.frhov)
    E := 0.25 * (e.E + w.E + no.E + so.E) -
        dtdx * (fx1.fE - fx2.fE) - dtdy * (fy1.fE - fy2.fE) }

/-- Whether `(i, j)` is an interior cell, `1 ≤ i ≤ Nx` and `1 ≤ j ≤ Ny` —
the index range of the interior-update and commit loops. -/
def isInterior (c : Config) (i j : ℕ) : Prop :=
  1 ≤ i ∧ i ≤ c.Nx ∧ 1 ≤ j ∧ j ≤ c.Ny

instance (c : Config) (i j : ℕ) : Decidable (isInterior c i j) := by
  unfold isInterior; infer_instance

/-- The Interior Updater pass: the next buffer holds, at each interior
cell, the current value for solid cells and the Lax–Friedrichs update
otherwise.  The pass writes only interior cells; outside that range the
next buffer is never read, modelled here as carrying `s`. -/
def nextBuffer (c : Config) (solid : ℕ → ℕ → Bool) (s : State) : State :=
  fun i j =>
    if isInterior c i j then
      if solid i j then s i j else laxCell c s i j
    else s i j

/-- The commit loop: copy the next buffer back over the interior cells,
leaving ghost cells as they are. -/
def commitState (c : Config) (s next : State) : State := fun i j =>
  if isInterior c i j then next i j else s i j

/-- One full time step: Boundary Applicator, then Interior Updater, then
Commit. -/
def stepState (c : Config) (solid : ℕ → ℕ → Bool) (s : State) : State :=
  let sb := applyBoundary c s
  commitState c sb (nextBuffer c solid sb)

/-- The diagnostic reduction: sum over all interior cells (solid cells
included) of `0.5 * rho * (u*u + v*v)` with `u = rhou/rho`, `v = rhov/rho`. -/
def totalKinetic (c : Config) (s : State) : ℚ :=
  ∑ i ∈ Finset.Icc 1 c.Nx, ∑ j ∈ Finset.Icc 1 c.Ny,
    (let u := (s i j).rhou / (s i j).rho
     let v := (s i j).rhov / (s i j).rho
     0.5 * (s i j).rho * (u * u + v * v))

/-- The driver loop: `runSim c solid k n s` performs `k` steps starting at
step index `n` from state `s`, returning the final state and the list of
diagnostic outputs `(step index, total kinetic energy)`, emitted on every
step whose index is divisible by 50 and reading the committed state. -/
def runSim (c : Config) (solid : ℕ → ℕ → Bool) :
    ℕ → ℕ → State → State × List (ℕ × ℚ)
  | 0, _, s => (s, [])
  | k + 1, n, s =>
    let s1 := stepState c solid s
    let r := runSim c solid k (n + 1) s1
    if n % 50 = 0 then (r.1, (n, totalKinetic c s1) :: r.2) else r

/-! ### Checked (guarded) variants of the pure functions

The source computes `u = rhou/rho` and `v = rhov/rho` unconditionally in
`pressure`, `fluxX` and `fluxY`.  The checked variants below guard every
division that the source performs and return `none` when a divisor is
zero; they witness that under `rho ≠ 0` every division is well-defined. -/

/-- Division that fails on a zero divisor. -/
def checkedDiv (a b : ℚ) : Option ℚ :=
  if b = 0 then none else some (a / b)

/-- `pressure` with every division guarded. -/
def pressureChecked (rho rhou rhov E : ℚ) : Option ℚ := do
  let u ← checkedDiv rhou rho
  let v ← checkedDiv rhov rho
  let kinetic := 0.5 * rho * (u * u + v * v)
  pure ((gammaVal - 1) * (E - kinetic))

/-- `fluxX` with every division guarded. -/
def fluxXChecked (rho rhou rhov E : ℚ) : Option Flux := do
  let u ← checkedDiv rhou rho
  let p ← pressureChecked rho rhou rhov E
  pure { frho := rhou, frhou := rhou * u + p, frhov := rhov * u, fE := (E + p) * u }

/-- `fluxY` with every division guarded. -/
def fluxYChecked (rho rhou rhov E : ℚ) : Option Flux := do
  let v ← checkedDiv rhov rho
  let p ← pressureChecked rho rhou rhov E
  pure { frho := rhov, frhou := rhou * v, frhov := rhov * v + p, fE := (E + p) * v }

/-! ### Spec-side formula for the interior update

The spec states the update as
`next[q] = ¼·(q[east]+q[west]+q[north]+q[south])
  − (dt/(2dx))·(Fx[q](east) − Fx[q](west))
  − (dt/(2dy))·(Fy[q](north) − Fy[q](south))`;
`specLaxCell` transcribes that sentence, to be compared with the update
the code performs. -/

/-- The interior update exactly as the spec's formula sentence states it
(east `(i+1,j)`, west `(i-1,j)`, north `(i,j+1)`, south `(i,j-1)`). -/
def specLaxCell (c : Config) (s : State) (i j : ℕ) : Cell :=
  let east := s (i + 1) j
  let west := s (i - 1) j
  let north := s i (j + 1)
  let south := s i (j - 1)
  { rho := 1 / 4 * (east.rho + west.rho + north.rho + south.rho) -
        c.dt / (2 * c.dx) * ((fluxXCell east).frho - (fluxXCell west).frho) -
        c.dt / (2 * c.dy) * ((fluxYCell north).frho - (fluxYCell south).frho)
    rhou := 1 / 4 * (east.rhou + west.rhou + north.rhou + south.rhou) -
        c.dt / (2 * c.dx) * ((fluxXCell east).frhou - (fluxXCell west).frhou) -
        c.dt / (2 * c.dy) * ((fluxYCell north).frhou - (fluxYCell south).frhou)
    rhov := 1 / 4 * (east.rhov + west.rhov + north.rhov + south.rhov) -
        c.dt / (2 * c.dx) * ((fluxXCell east).frhov - (fluxXCell west).frhov) -
        c.dt / (2 * c.dy) * ((fluxYCell north).frhov - (fluxYCell south).frhov)
    E := 1 / 4 * (east.E + west.E + north.E + south.E) -
        c.dt / (2 * c.dx) * ((fluxXCell east).fE - (fluxXCell west).fE) -
        c.dt / (2 * c.dy) * ((fluxYCell north).fE - (fluxYCell south).fE) }

/-! ### Helper lemmas -/

/-- The left ghost column holds the free stream right after the
left/right boundary loop. -/
lemma applyLR_left (c : Config) (s : State) (j : ℕ) :
    applyLR c s 0 j = freeStreamCell c := by
  have h : (0 : ℕ) ≠ c.Nx + 1 := by omega
  simp [applyLR, h]

/-- After the bottom/top boundary loop, each ghost row mirrors the
adjacent row of the same (post-loop) state, provided `1 ≤ Ny`. -/
lemma applyBT_mirror (c : Config) (u : State) (i : ℕ) (hNy : 1 ≤ c.Ny) :
    applyBT c u i 0 = mirrorCell (applyBT c u i 1) ∧
      applyBT c u i (c.Ny + 1) = mirrorCell (applyBT c u i c.Ny) := by
  have h1 : (0 : ℕ) ≠ c.Ny + 1 := by omega
  have h2 : (1 : ℕ) ≠ c.Ny + 1 := by omega
  have h3 : c.Ny ≠ 0 := by omega
  have h4 : c.Ny ≠ c.Ny + 1 := by omega
  constructor <;> simp [applyBT, h1, h2, h3, h4]

/-- The Boundary Applicator leaves interior cells untouched. -/
lemma applyBoundary_interior (c : Config) (s : State) (i j : ℕ)
    (h : isInterior c i j) :
    applyBoundary c s i j = s i j := by
  obtain ⟨hi1, hi2, hj1, hj2⟩ := h
  have hiz : i ≠ 0 := by omega
  have hix : i ≠ c.Nx + 1 := by omega
  have hjz : j ≠ 0 := by omega
  have hjy : j ≠ c.Ny + 1 := by omega
  simp [applyBoundary, applyBT, applyLR, hiz, hix, hjz, hjy]

/-! ### Claim theorems -/

/-- Claim C9: the pressure function exactly inverts the construction of the
free-stream total energy: for `rho0 > 0` and
`E0 = p0/(gamma-1) + 0.5*rho0*(u0*u0 + v0*v0)`,
`pressure rho0 (rho0*u0) (rho0*v0) E0 = p0`. -/
theorem pressure_roundtrip (rho0 u0 v0 p0 : ℚ) (hrho : 0 < rho0) :
    pressure rho0 (rho0 * u0) (rho0 * v0)
      (p0 / (gammaVal - 1) + 0.5 * rho0 * (u0 * u0 + v0 * v0)) = p0 := by
  have h0 : rho0 ≠ 0 := ne_of_gt hrho
  have hg : gammaVal - 1 ≠ 0 := by norm_num [gammaVal]
  unfold pressure
  field_simp
  ring

/-- Witness for C9 at the program's free-stream state
`rho0 = 1, u0 = 1, v0 = 0, p0 = 1`. -/
theorem pressure_roundtrip_witness :
    0 < (1 : ℚ) ∧
      pressure 1 (1 * 1) (1 * 0)
        (1 / (gammaVal - 1) + 0.5 * 1 * (1 * 1 + 0 * 0)) = 1 :=
  ⟨by norm_num, pressure_roundtrip 1 1 0 1 (by norm_num)⟩

/-- Claim C10: under the precondition `rho ≠ 0`, every division performed by
`pressure`, `fluxX` and `fluxY` is well-defined: the guarded variants
succeed and return exactly the unguarded values. -/
theorem flux_divisions_welldefined (rho rhou rhov E : ℚ) (h : rho ≠ 0) :
    pressureChecked rho rhou rhov E = some (pressure rho rhou rhov E) ∧
      fluxXChecked rho rhou rhov E = some (fluxX rho rhou rhov E) ∧
      fluxYChecked rho rhou rhov E = some (fluxY rho rhou rhov E) := by
  refine ⟨?_, ?_, ?_⟩ <;>
    simp [pressureChecked, fluxXChecked, fluxYChecked, checkedDiv, h,
      pressure, fluxX, fluxY, Option.bind]

/-- Witness for C10 at `(rho, rhou, rhov, E) = (2, 3, 5, 7)`. -/
theorem flux_divisions_welldefined_witness :
    (2 : ℚ) ≠ 0 ∧
      (pressureChecked 2 3 5 7 = some (pressure 2 3 5 7) ∧
        fluxXChecked 2 3 5 7 = some (fluxX 2 3 5 7) ∧
        fluxYChecked 2 3 5 7 = some (fluxY 2 3 5 7)) :=
  ⟨by norm_num, flux_divisions_welldefined 2 3 5 7 (by norm_num)⟩

/-- Claim C4: after initialization, a cell `(i, j)` is solid exactly when
its center `x = (i-0.5)*dx`, `y = (j-0.5)*dy` satisfies
`(x-cx)^2 + (y-cy)^2 ≤ radius^2`; the comparison is inclusive, so a center
exactly at distance `radius` is classified solid. -/
theorem solid_iff_inside (c : Config) (cx cy radius : ℚ) (i j : ℕ) :
    (initSolid c cx cy radius i j = true ↔
      (((i : ℚ) - 0.5) * c.dx - cx) ^ 2 + (((j : ℚ) - 0.5) * c.dy - cy) ^ 2 ≤
        radius ^ 2) ∧
      ((((i : ℚ) - 0.5) * c.dx - cx) ^ 2 + (((j : ℚ) - 0.5) * c.dy - cy) ^ 2 =
          radius ^ 2 →
        initSolid c cx cy radius i j = true) := by
  constructor
  · unfold initSolid
    rw [decide_eq_true_eq]
    constructor <;> intro h <;> nlinarith [h]
  · intro h
    unfold initSolid
    rw [decide_eq_true_eq]
    nlinarith [h]

/-- A concrete configuration used to witness the claim theorems. -/
def cSample : Config :=
  { Nx := 4, Ny := 3, dx := 1 / 2, dy := 1 / 3, dt := 1 / 10,
    rho0 := 2, u0 := 3, v0 := 5, p0 := 7 }

/-- A concrete state with varied, nonzero densities, used to witness the
claim theorems. -/
def sSample : State := fun i j =>
  { rho := (i : ℚ) + 2 * (j : ℚ) + 1, rhou := (i : ℚ) - (j : ℚ),
    rhov := (i : ℚ) * (j : ℚ) + 1, E := (i : ℚ) + (j : ℚ) + 2 }

/-- A concrete all-false obstacle mask. -/
def solidNone : ℕ → ℕ → Bool := fun _ _ => false

/-- A concrete all-true obstacle mask. -/
def solidAll : ℕ → ℕ → Bool := fun _ _ => true

/-- Claim C1: at every non-solid interior cell the Interior Updater writes
exactly the spec's Lax–Friedrichs formula (quarter-sum of the four face
neighbors minus the scaled flux differences), and the written value reads
only the four face neighbors of the current buffer — in particular the
cell's own old value at `(i, j)` is never read. -/
theorem interior_update_lax (c : Config) (solid : ℕ → ℕ → Bool) (s : State)
    (i j : ℕ) (hin : isInterior c i j) (hsol : solid i j = false) :
    nextBuffer c solid s i j = specLaxCell c s i j ∧
      ∀ t : State, t (i + 1) j = s (i + 1) j → t (i - 1) j = s (i - 1) j →
        t i (j + 1) = s i (j + 1) → t i (j - 1) = s i (j - 1) →
        nextBuffer c solid t i j = nextBuffer c solid s i j := by
  constructor
  · ext <;> simp [nextBuffer, hin, hsol, laxCell, specLaxCell] <;> norm_num
  · intro t h1 h2 h3 h4
    simp [nextBuffer, hin, hsol, laxCell, h1, h2, h3, h4]

/-- Witness for C1 at the sample configuration, cell `(1, 1)`. -/
theorem interior_update_lax_witness :
    isInterior cSample 1 1 ∧ solidNone 1 1 = false ∧
      (nextBuffer cSample solidNone sSample 1 1 = specLaxCell cSample sSample 1 1 ∧
        ∀ t : State, t 2 1 = sSample 2 1 → t 0 1 = sSample 0 1 →
          t 1 2 = sSample 1 2 → t 1 0 = sSample 1 0 →
          nextBuffer cSample solidNone t 1 1 = nextBuffer cSample solidNone sSample 1 1) :=
  ⟨by decide, rfl,
    interior_update_lax cSample solidNone sSample 1 1 (by decide) rfl⟩

/-- Claim C6: immediately after the Boundary Applicator, the bottom ghost
cell of every column mirrors the adjacent row-1 cell (`rho`, `rhou`, `E`
copied exactly, `rhov` negated), and the top ghost cell mirrors row `Ny`
the same way. -/
theorem reflective_ghost_rows (c : Config) (s : State) (i : ℕ)
    (hNy : 1 ≤ c.Ny) :
    applyBoundary c s i 0 = mirrorCell (applyBoundary c s i 1) ∧
      applyBoundary c s i (c.Ny + 1) = mirrorCell (applyBoundary c s i c.Ny) :=
  applyBT_mirror c (applyLR c s) i hNy

/-- Witness for C6 at the sample configuration, column `i = 2`. -/
theorem reflective_ghost_rows_witness :
    1 ≤ cSample.Ny ∧
      (applyBoundary cSample sSample 2 0 =
          mirrorCell (applyBoundary cSample sSample 2 1) ∧
        applyBoundary cSample sSample 2 (cSample.Ny + 1) =
          mirrorCell (applyBoundary cSample sSample 2 cSample.Ny)) :=
  ⟨by decide, reflective_ghost_rows cSample sSample 2 (by decide)⟩

/-- Claim C7: the bottom/top reflective pass runs after the left/right
pass, so each of the four corner ghost cells ends up holding the
reflective rule's value — the mirror of the `j = 1` or `j = Ny` cell of
its column with `rhov` negated — for every state and configuration with
`1 ≤ Ny`.  (In the program `v0 = 0`, so at the left corners this
reflective value happens to coincide with the inflow rule's free-stream
value; the theorem asserts which rule's value the corner holds, not an
inequality.) -/
theorem corner_ghost_reflective (c : Config) (s : State) (hNy : 1 ≤ c.Ny) :
    applyBoundary c s 0 0 = mirrorCell (applyBoundary c s 0 1) ∧
      applyBoundary c s 0 (c.Ny + 1) = mirrorCell (applyBoundary c s 0 c.Ny) ∧
      applyBoundary c s (c.Nx + 1) 0 =
        mirrorCell (applyBoundary c s (c.Nx + 1) 1) ∧
      applyBoundary c s (c.Nx + 1) (c.Ny + 1) =
        mirrorCell (applyBoundary c s (c.Nx + 1) c.Ny) := by
  obtain ⟨hb0, ht0⟩ := applyBT_mirror c (applyLR c s) 0 hNy
  obtain ⟨hbx, htx⟩ := applyBT_mirror c (applyLR c s) (c.Nx + 1) hNy
  exact ⟨hb0, ht0, hbx, htx⟩

/-- Witness for C7 at the sample configuration. -/
theorem corner_ghost_reflective_witness :
    1 ≤ cSample.Ny ∧
      (applyBoundary cSample sSample 0 0 =
          mirrorCell (applyBoundary cSample sSample 0 1) ∧
        applyBoundary cSample sSample 0 (cSample.Ny + 1) =
          mirrorCell (applyBoundary cSample sSample 0 cSample.Ny) ∧
        applyBoundary cSample sSample (cSample.Nx + 1) 0 =
          mirrorCell (applyBoundary cSample sSample (cSample.Nx + 1) 1) ∧
        applyBoundary cSample sSample (cSample.Nx + 1) (cSample.Ny + 1) =
          mirrorCell (applyBoundary cSample sSample (cSample.Nx + 1) cSample.Ny)) :=
  ⟨by decide, corner_ghost_reflective cSample sSample (by decide)⟩

/-- One step leaves a solid interior cell exactly as it was. -/
lemma step_fixes_solid (c : Config) (solid : ℕ → ℕ → Bool) (s : State)
    (i j : ℕ) (hin : isInterior c i j) (hsol : solid i j = true) :
    stepState c solid s i j = s i j := by
  simp [stepState, commitState, nextBuffer, hin, hsol,
    applyBoundary_interior c s i j hin]

/-- Claim C3: every solid interior cell is frozen for the whole run — its
full conservative state after step `n+1` equals its state after step `n`,
for every `n` (the Interior Updater copies it unchanged and the Commit
copies it back). -/
theorem solid_cells_frozen (c : Config) (solid : ℕ → ℕ → Bool) (s0 : State)
    (i j : ℕ) (hin : isInterior c i j) (hsol : solid i j = true) :
    ∀ n : ℕ, (stepState c solid)^[n + 1] s0 i j =
      (stepState c solid)^[n] s0 i j := by
  intro n
  rw [Function.iterate_succ_apply']
  exact step_fixes_solid c solid ((stepState c solid)^[n] s0) i j hin hsol

/-- Witness for C3 at the sample configuration with an all-solid mask,
cell `(1, 1)`. -/
theorem solid_cells_frozen_witness :
    isInterior cSample 1 1 ∧ solidAll 1 1 = true ∧
      ∀ n : ℕ, (stepState cSample solidAll)^[n + 1] sSample 1 1 =
        (stepState cSample solidAll)^[n] sSample 1 1 :=
  ⟨by decide, rfl, solid_cells_frozen cSample solidAll sSample 1 1 (by decide) rfl⟩

/-- When `v0 = 0` the reflective mirror fixes the free-stream cell. -/
lemma mirror_freeStream (c : Config) (hv : c.v0 = 0) :
    mirrorCell (freeStreamCell c) = freeStreamCell c := by
  ext <;> simp [mirrorCell, freeStreamCell, hv]

/-- After the whole Boundary Applicator, the left ghost column holds the
free stream (when `v0 = 0`, so that the reflective pass's corner writes
reproduce it). -/
lemma applyBoundary_left_col (c : Config) (s : State) (j : ℕ)
    (hv : c.v0 = 0) :
    applyBoundary c s 0 j = freeStreamCell c := by
  have hm := mirror_freeStream c hv
  unfold applyBoundary applyBT
  by_cases h1 : j = c.Ny + 1
  · by_cases h2 : c.Ny = 0 <;> simp [h1, h2, applyLR_left, hm]
  · by_cases h2 : j = 0 <;> simp [h1, h2, applyLR_left, hm]

/-- Claim C5: at every step, once the Boundary Applicator has run the
whole left ghost column `(0, j)` holds exactly the free-stream state
`(rho0, rho0*u0, rho0*v0, E0)` — every `j`, the two corner cells that the
later reflective pass rewrites included (the program has `v0 = 0`, which
makes the reflective corner writes reproduce the inflow value) — and it
still does at the end of the step, after Interior Updater and Commit: the
Dirichlet inflow condition never drifts. -/
theorem inflow_column_invariant (c : Config) (solid : ℕ → ℕ → Bool)
    (s s0 : State) (j : ℕ) (hv : c.v0 = 0) :
    applyBoundary c s 0 j = freeStreamCell c ∧
      ∀ n : ℕ, (stepState c solid)^[n + 1] s0 0 j = freeStreamCell c := by
  refine ⟨applyBoundary_left_col c s j hv, fun n => ?_⟩
  rw [Function.iterate_succ_apply']
  have hni : ¬ isInterior c 0 j := by simp [isInterior]
  simp [stepState, commitState, hni,
    applyBoundary_left_col c ((stepState c solid)^[n] s0) j hv]

/-- A sample configuration with `v0 = 0`, as in the program. -/
def cSampleV0 : Config :=
  { Nx := 4, Ny := 3, dx := 1 / 2, dy := 1 / 3, dt := 1 / 10,
    rho0 := 2, u0 := 3, v0 := 0, p0 := 7 }

/-- Witness for C5 at the `v0 = 0` sample configuration, `j = 0`. -/
theorem inflow_column_invariant_witness :
    cSampleV0.v0 = 0 ∧
      (applyBoundary cSampleV0 sSample 0 0 = freeStreamCell cSampleV0 ∧
        ∀ n : ℕ, (stepState cSampleV0 solidNone)^[n + 1] sSample 0 0 =
          freeStreamCell cSampleV0) :=
  ⟨rfl, inflow_column_invariant cSampleV0 solidNone sSample sSample 0 rfl⟩

/-- On a uniform state, the left/right boundary loop changes nothing
(when the uniform cell is the free stream). -/
lemma applyLR_const (c : Config) (s : State) (cc : Cell)
    (h : ∀ a b, s a b = cc) (hfs : freeStreamCell c = cc) (a b : ℕ) :
    applyLR c s a b = cc := by
  simp [applyLR, h, hfs]

/-- On a uniform state whose cell is fixed by the reflective mirror, the
whole Boundary Applicator changes nothing. -/
lemma applyBoundary_const (c : Config) (s : State) (cc : Cell)
    (h : ∀ a b, s a b = cc) (hfs : freeStreamCell c = cc)
    (hm : mirrorCell cc = cc) (a b : ℕ) :
    applyBoundary c s a b = cc := by
  have hLR : ∀ a b, applyLR c s a b = cc := applyLR_const c s cc h hfs
  simp [applyBoundary, applyBT, hLR, hm]

/-- The Lax–Friedrichs update of a uniform state reproduces the uniform
cell: the quarter-sum of four equal values is the value and the flux
differences cancel. -/
lemma laxCell_const (c : Config) (s : State) (cc : Cell)
    (h : ∀ a b, s a b = cc) (i j : ℕ) : laxCell c s i j = cc := by
  ext <;> simp [laxCell, h] <;> ring

/-- A full step fixes every non-solid interior cell of a uniform
free-stream-compatible state. -/
lemma step_const (c : Config) (solid : ℕ → ℕ → Bool) (s : State) (cc : Cell)
    (h : ∀ a b, s a b = cc) (hfs : freeStreamCell c = cc)
    (hm : mirrorCell cc = cc) (i j : ℕ) (hin : isInterior c i j)
    (hsol : solid i j = false) : stepState c solid s i j = cc := by
  have hB : ∀ a b, applyBoundary c s a b = cc :=
    applyBoundary_const c s cc h hfs hm
  simp [stepState, commitState, nextBuffer, hin, hsol,
    laxCell_const c _ cc hB i j]

/-- The spec's end-to-end scenario configuration: `Nx = Ny = 4`,
`Lx = Ly = 1` (so `dx = dy = 1/4`), free stream
`rho0 = 1, u0 = 1, v0 = 0, p0 = 1`; the time step stays symbolic. -/
def c2Config (dt : ℚ) : Config :=
  { Nx := 4, Ny := 4, dx := 1 / 4, dy := 1 / 4, dt := dt,
    rho0 := 1, u0 := 1, v0 := 0, p0 := 1 }

/-- With `radius = 0`, a cell whose center's x-coordinate differs from
`cx` is not solid. -/
lemma initSolid_radius_zero (c : Config) (cx cy : ℚ) (i j : ℕ)
    (hx : ((i : ℚ) - 0.5) * c.dx - cx ≠ 0) :
    initSolid c cx cy 0 i j = false := by
  unfold initSolid
  rw [decide_eq_false_iff_not]
  intro hle
  have h1 : 0 < (((i : ℚ) - 0.5) * c.dx - cx) * (((i : ℚ) - 0.5) * c.dx - cx) :=
    mul_self_pos.mpr hx
  have h2 : 0 ≤ (((j : ℚ) - 0.5) * c.dy - cy) * (((j : ℚ) - 0.5) * c.dy - cy) :=
    mul_self_nonneg _
  nlinarith

/-- No cell center of the scenario grid has x-coordinate `1/2`: that
would need `i = 5/2`. -/
lemma c2_center_x_ne (i : ℕ) : ((i : ℚ) - 0.5) * (1 / 4 : ℚ) - 1 / 2 ≠ 0 := by
  intro h0
  have h1 : ((2 * i : ℕ) : ℚ) = ((5 : ℕ) : ℚ) := by push_cast; linarith
  have h2 : 2 * i = 5 := Nat.cast_inj.mp h1
  omega

/-- In the scenario, no cell is solid: the zero-radius obstacle contains
no cell center. -/
lemma c2_solid_false (dt : ℚ) (i j : ℕ) :
    initSolid (c2Config dt) (1 / 2) (1 / 2) 0 i j = false :=
  initSolid_radius_zero (c2Config dt) (1 / 2) (1 / 2) i j (c2_center_x_ne i)

/-- Claim C2: in the no-obstacle scenario (`Nx = Ny = 4`, `radius = 0`,
uniform free stream with `v0 = 0`), after one full step (Boundary
Applicator, Interior Updater, Commit) every interior cell's density is
exactly `rho0 = 1` and its x-momentum exactly `rho0 * u0 = 1 * 1`: the
uniform free stream is a fixed point of the scheme, for every time step
`dt`. -/
theorem freestream_fixed_point (dt : ℚ) (i j : ℕ) (hi1 : 1 ≤ i) (hi2 : i ≤ 4)
    (hj1 : 1 ≤ j) (hj2 : j ≤ 4) :
    (stepState (c2Config dt) (initSolid (c2Config dt) (1 / 2) (1 / 2) 0)
        (initState (c2Config dt) (1 / 2) (1 / 2) 0) i j).rho = 1 ∧
      (stepState (c2Config dt) (initSolid (c2Config dt) (1 / 2) (1 / 2) 0)
          (initState (c2Config dt) (1 / 2) (1 / 2) 0) i j).rhou = 1 * 1 := by
  have hsol := c2_solid_false dt
  have h : ∀ a b, initState (c2Config dt) (1 / 2) (1 / 2) 0 a b =
      freeStreamCell (c2Config dt) := by
    intro a b
    unfold initState
    rw [hsol a b]
    simp
  have hm : mirrorCell (freeStreamCell (c2Config dt)) =
      freeStreamCell (c2Config dt) := mirror_freeStream (c2Config dt) rfl
  have hin : isInterior (c2Config dt) i j := ⟨hi1, hi2, hj1, hj2⟩
  have hstep := step_const (c2Config dt) _ _ _ h rfl hm i j hin (hsol i j)
  rw [hstep]
  constructor <;> simp [freeStreamCell, c2Config]

/-- Witness for C2 at cell `(1, 1)` with `dt = 1/7`. -/
theorem freestream_fixed_point_witness :
    (1 ≤ 1 ∧ 1 ≤ 4 ∧ 1 ≤ 1 ∧ 1 ≤ 4) ∧
      ((stepState (c2Config (1 / 7)) (initSolid (c2Config (1 / 7)) (1 / 2) (1 / 2) 0)
          (initState (c2Config (1 / 7)) (1 / 2) (1 / 2) 0) 1 1).rho = 1 ∧
        (stepState (c2Config (1 / 7)) (initSolid (c2Config (1 / 7)) (1 / 2) (1 / 2) 0)
            (initState (c2Config (1 / 7)) (1 / 2) (1 / 2) 0) 1 1).rhou = 1 * 1) :=
  ⟨by decide,
    freestream_fixed_point (1 / 7) 1 1 (by decide) (by decide) (by decide) (by decide)⟩

/-- Closed form of the driver loop: running `k` steps from step index `n`
iterates `stepState` `k` times, and emits one diagnostic line per step
index divisible by 50, reading the state committed on that step. -/
lemma runSim_spec (c : Config) (solid : ℕ → ℕ → Bool) :
    ∀ (k n : ℕ) (s : State),
      runSim c solid k n s =
        ((stepState c solid)^[k] s,
          ((List.range' n k).filter (fun m => m % 50 = 0)).map
            (fun m => (m, totalKinetic c ((stepState c solid)^[m - n + 1] s)))) := by
  intro k
  induction k with
  | zero => intro n s; simp [runSim]
  | succ k ih =>
    intro n s
    have hrec := ih (n + 1) (stepState c solid s)
    have hdef : runSim c solid (k + 1) n s =
        (if n % 50 = 0 then
          ((runSim c solid k (n + 1) (stepState c solid s)).1,
            (n, totalKinetic c (stepState c solid s)) ::
              (runSim c solid k (n + 1) (stepState c solid s)).2)
        else runSim c solid k (n + 1) (stepState c solid s)) := rfl
    rw [List.range'_succ, hdef, hrec]
    have hs1 : (stepState c solid)^[k] (stepState c solid s) =
        (stepState c solid)^[k + 1] s :=
      (Function.iterate_succ_apply (stepState c solid) k s).symm
    have htail :
        ((List.range' (n + 1) k).filter (fun m => m % 50 = 0)).map
            (fun m => (m, totalKinetic c
              ((stepState c solid)^[m - (n + 1) + 1] (stepState c solid s)))) =
          ((List.range' (n + 1) k).filter (fun m => m % 50 = 0)).map
            (fun m => (m, totalKinetic c ((stepState c solid)^[m - n + 1] s))) := by
      apply List.map_congr_left
      intro m hm
      have hmem := (List.mem_filter.mp hm).1
      obtain ⟨a, _, ha⟩ := List.mem_range'.mp hmem
      have hge : n + 1 ≤ m := by omega
      have h1 : m - (n + 1) + 1 = m - n := by omega
      have h2 : (stepState c solid)^[m - n] (stepState c solid s) =
          (stepState c solid)^[m - n + 1] s :=
        (Function.iterate_succ_apply (stepState c solid) (m - n) s).symm
      rw [h1, h2]
    by_cases hn : n % 50 = 0
    · rw [if_pos hn, List.filter_cons_of_pos (by simpa using hn)]
      simp only [List.map_cons, hs1, htail, Nat.sub_self]
      simp
    · rw [if_neg hn, List.filter_cons_of_neg (by simpa using hn)]
      simp only [hs1, htail]

/-- Claim C8: the driver emits a diagnostic exactly on the steps whose
index is divisible by 50 (step 0 included), each reporting
`totalKinetic` — the sum over all interior cells, solid ones included, of
`0.5*rho*(u*u+v*v)` — of the state committed on that step; and the
diagnostic pass changes no simulation state: the final state is exactly
`nSteps` iterations of `stepState`. -/
theorem diagnostics_schedule (c : Config) (solid : ℕ → ℕ → Bool)
    (s0 : State) (nSteps : ℕ) :
    (runSim c solid nSteps 0 s0).1 = (stepState c solid)^[nSteps] s0 ∧
      (runSim c solid nSteps 0 s0).2 =
        ((List.range nSteps).filter (fun n => n % 50 = 0)).map
          (fun n => (n, totalKinetic c ((stepState c solid)^[n + 1] s0))) := by
  rw [runSim_spec, List.range_eq_range']
  exact ⟨rfl, by simp⟩

end CfdEuler
